import Mathlib

/-!
Verification of the banana front end (a salsa-based incremental calc language):
shallow embedding of `src/ir.rs` and `src/parser.rs`, with the lalrpop grammar
(`grammar.lalrpop`, not present in the sources) modelled from the specification.

Modelling conventions:
* salsa interned values (`VariableId`, `FunctionId`, `DefId`) are interned purely
  by value, so they are modelled by the interned data itself.
* `usize` arithmetic appears only as the two `-=` subtractions in
  `RewriteSpans::visit_span`; they are modelled by truncated `Nat` subtraction,
  and the debug-mode underflow panic is modelled separately by the `Checked`
  variants returning `Option`.
* `OrderedFloat<f64>` literal values are modelled as exact rationals read off the
  numeral; no property verified here distinguishes numerically equal literals.
* the `Diagnostics` salsa accumulator is modelled as the list of diagnostics
  pushed during one evaluation of `parse_statements`, returned alongside the
  `Program`.
-/

set_option autoImplicit false

namespace Banana

/-- Interned variable name (ir.rs `VariableId`): interning is by text value, so it
is modelled by the text itself. -/
abbrev VariableId := String

/-- Interned function name (ir.rs `FunctionId`). -/
abbrev FunctionId := String

/-- Payload of a definition identity (ir.rs `DefIdData`). -/
inductive DefIdData where
  | Unknown : DefIdData
  | Function (f : FunctionId) : DefIdData
deriving DecidableEq, Repr

/-- Interned definition identity (ir.rs `DefId`): an interned handle over
`DefIdData`, modelled by the data itself. -/
abbrev DefId := DefIdData

/-- DefId::unknown (ir.rs). -/
def DefId.unknown : DefId := DefIdData.Unknown

/-- Span (ir.rs): a byte range tagged with the definition it belongs to.
The Rust field `end` is a Lean keyword, so it is written `«end»`. -/
structure Span where
  id : DefId
  start : Nat
  «end» : Nat
deriving DecidableEq, Repr

/-- Binary operator (ir.rs `Op`). -/
inductive Op where
  | Add | Subtract | Multiply | Divide
deriving DecidableEq, Repr

mutual
/-- Expression (ir.rs): a span plus an `ExpressionData` payload. -/
inductive Expression where
  | mk (span : Span) (data : ExpressionData)
deriving Repr

/-- Expression payload (ir.rs `ExpressionData`). -/
inductive ExpressionData where
  | Op (l : Expression) (o : Op) (r : Expression)
  | Number (v : Rat)
  | Variable (v : VariableId)
  | Call (f : FunctionId) (args : List Expression)
deriving Repr
end

/-- Projection for the `span` field of `Expression`. -/
def Expression.span : Expression → Span
  | .mk s _ => s

/-- Projection for the `data` field of `Expression`. -/
def Expression.data : Expression → ExpressionData
  | .mk _ d => d

mutual
/-- Decidable equality for `Expression` (the mutual/nested inductive blocks the
derive handler). -/
def Expression.decEq : (a b : Expression) → Decidable (a = b)
  | .mk s₁ d₁, .mk s₂ d₂ =>
    match decEq s₁ s₂ with
    | isFalse h => isFalse (by intro hc; cases hc; exact h rfl)
    | isTrue h₁ =>
      match ExpressionData.decEq d₁ d₂ with
      | isFalse h => isFalse (by intro hc; cases hc; exact h rfl)
      | isTrue h₂ => isTrue (by rw [h₁, h₂])

/-- Decidable equality for `ExpressionData`. -/
def ExpressionData.decEq : (a b : ExpressionData) → Decidable (a = b)
  | .Op l₁ o₁ r₁, .Op l₂ o₂ r₂ =>
    match Expression.decEq l₁ l₂ with
    | isFalse h => isFalse (by intro hc; cases hc; exact h rfl)
    | isTrue h₁ =>
      match decEq o₁ o₂ with
      | isFalse h => isFalse (by intro hc; cases hc; exact h rfl)
      | isTrue h₂ =>
        match Expression.decEq r₁ r₂ with
        | isFalse h => isFalse (by intro hc; cases hc; exact h rfl)
        | isTrue h₃ => isTrue (by rw [h₁, h₂, h₃])
  | .Number v₁, .Number v₂ =>
    match decEq v₁ v₂ with
    | isFalse h => isFalse (by intro hc; cases hc; exact h rfl)
    | isTrue h => isTrue (by rw [h])
  | .Variable v₁, .Variable v₂ =>
    match decEq v₁ v₂ with
    | isFalse h => isFalse (by intro hc; cases hc; exact h rfl)
    | isTrue h => isTrue (by rw [h])
  | .Call f₁ a₁, .Call f₂ a₂ =>
    match decEq f₁ f₂ with
    | isFalse h => isFalse (by intro hc; cases hc; exact h rfl)
    | isTrue h₁ =>
      match Expression.decEqList a₁ a₂ with
      | isFalse h => isFalse (by intro hc; cases hc; exact h rfl)
      | isTrue h₂ => isTrue (by rw [h₁, h₂])
  | .Op _ _ _, .Number _ => isFalse (by intro hc; cases hc)
  | .Op _ _ _, .Variable _ => isFalse (by intro hc; cases hc)
  | .Op _ _ _, .Call _ _ => isFalse (by intro hc; cases hc)
  | .Number _, .Op _ _ _ => isFalse (by intro hc; cases hc)
  | .Number _, .Variable _ => isFalse (by intro hc; cases hc)
  | .Number _, .Call _ _ => isFalse (by intro hc; cases hc)
  | .Variable _, .Op _ _ _ => isFalse (by intro hc; cases hc)
  | .Variable _, .Number _ => isFalse (by intro hc; cases hc)
  | .Variable _, .Call _ _ => isFalse (by intro hc; cases hc)
  | .Call _ _, .Op _ _ _ => isFalse (by intro hc; cases hc)
  | .Call _ _, .Number _ => isFalse (by intro hc; cases hc)
  | .Call _ _, .Variable _ => isFalse (by intro hc; cases hc)

/-- Decidable equality for lists of expressions. -/
def Expression.decEqList : (a b : List Expression) → Decidable (a = b)
  | [], [] => isTrue rfl
  | [], _ :: _ => isFalse (by intro hc; cases hc)
  | _ :: _, [] => isFalse (by intro hc; cases hc)
  | x :: xs, y :: ys =>
    match Expression.decEq x y with
    | isFalse h => isFalse (by intro hc; cases hc; exact h rfl)
    | isTrue h₁ =>
      match Expression.decEqList xs ys with
      | isFalse h => isFalse (by intro hc; cases hc; exact h rfl)
      | isTrue h₂ => isTrue (by rw [h₁, h₂])
end

instance : DecidableEq Expression := Expression.decEq

instance : DecidableEq ExpressionData := ExpressionData.decEq

/-- FunctionData (ir.rs): name span, argument list, body. -/
structure FunctionData where
  name_span : Span
  args : List VariableId
  body : Expression
deriving DecidableEq, Repr

/-- Statement payload (ir.rs `StatementData`). -/
inductive StatementData where
  | Function (name : FunctionId) (data : FunctionData)
  | Print (e : Expression)
deriving DecidableEq, Repr

/-- Statement (ir.rs): span plus payload. -/
structure Statement where
  span : Span
  data : StatementData
deriving DecidableEq, Repr

/-- Function (ir.rs): tracked entity keyed by `name`. -/
structure Function where
  name : FunctionId
  data : FunctionData
deriving DecidableEq, Repr

/-- Program (ir.rs): the retained list of functions. -/
structure Program where
  functions : List Function
deriving DecidableEq, Repr

/-- Diagnostic (ir.rs). -/
structure Diagnostic where
  start : Nat
  «end» : Nat
  message : String
deriving DecidableEq, Repr

/-- RewriteSpans::visit_span (parser.rs lines 20-24): set the span's `DefId` to
the visitor's `def_id` and subtract `start_offset` from both endpoints. The Rust
`-=` on `usize` panics on underflow in debug builds and wraps in release
builds — it never clamps to 0; it is modelled by truncated `Nat` subtraction,
which agrees with the Rust semantics exactly when no underflow occurs, the only
regime in which the localizer applies it to parser output (every span nested in
a statement starts at or after the statement's start). The underflow condition
itself is modelled faithfully by `visitSpanChecked`, and the invariant-
preservation theorem for C7 is stated through that checked model, not through
the clamping. -/
def visitSpan (off : Nat) (di : DefId) (s : Span) : Span :=
  ⟨di, s.start - off, s.«end» - off⟩

mutual
/-- Traversal of an expression by the `RewriteSpans` visitor (ir.rs
`Expression::traverse`: `visit_expr` is a no-op for `RewriteSpans`, then
`visit_span` on the node's span, then the payload's children). -/
def Expression.rewrite (off : Nat) (di : DefId) : Expression → Expression
  | .mk s d => .mk (visitSpan off di s) (d.rewrite off di)

/-- Traversal of an expression payload by `RewriteSpans` (ir.rs
`ExpressionData::traverse`). -/
def ExpressionData.rewrite (off : Nat) (di : DefId) : ExpressionData → ExpressionData
  | .Op l o r => .Op (l.rewrite off di) o (r.rewrite off di)
  | .Number v => .Number v
  | .Variable v => .Variable v
  | .Call f args => .Call f (Expression.rewriteList off di args)

/-- Traversal of an argument list by `RewriteSpans` (ir.rs `Vec<T>::traverse`). -/
def Expression.rewriteList (off : Nat) (di : DefId) : List Expression → List Expression
  | [] => []
  | e :: es => e.rewrite off di :: Expression.rewriteList off di es
end

/-- Traversal of a `FunctionData` by `RewriteSpans` (ir.rs
`FunctionData::traverse`: the `name_span`, then the body). -/
def FunctionData.rewrite (off : Nat) (di : DefId) (d : FunctionData) : FunctionData :=
  ⟨visitSpan off di d.name_span, d.args, d.body.rewrite off di⟩

/-- Checked version of `visitSpan`: `none` models the debug-mode `usize`
underflow panic of `span.start -= offset` / `span.end -= offset`
(parser.rs lines 22-23). -/
def visitSpanChecked (off : Nat) (di : DefId) (s : Span) : Option Span :=
  if s.start < off then none
  else if s.«end» < off then none
  else some ⟨di, s.start - off, s.«end» - off⟩

mutual
/-- Checked variant of `Expression.rewrite`: propagates the underflow panic. -/
def Expression.rewriteChecked (off : Nat) (di : DefId) : Expression → Option Expression
  | .mk s d =>
    match visitSpanChecked off di s with
    | none => none
    | some s' =>
      match d.rewriteChecked off di with
      | none => none
      | some d' => some (.mk s' d')

/-- Checked variant of `ExpressionData.rewrite`. -/
def ExpressionData.rewriteChecked (off : Nat) (di : DefId) :
    ExpressionData → Option ExpressionData
  | .Op l o r =>
    match l.rewriteChecked off di with
    | none => none
    | some l' =>
      match r.rewriteChecked off di with
      | none => none
      | some r' => some (.Op l' o r')
  | .Number v => some (.Number v)
  | .Variable v => some (.Variable v)
  | .Call f args =>
    match Expression.rewriteCheckedList off di args with
    | none => none
    | some args' => some (.Call f args')

/-- Checked variant of `Expression.rewriteList`. -/
def Expression.rewriteCheckedList (off : Nat) (di : DefId) :
    List Expression → Option (List Expression)
  | [] => some []
  | e :: es =>
    match e.rewriteChecked off di with
    | none => none
    | some e' =>
      match Expression.rewriteCheckedList off di es with
      | none => none
      | some es' => some (e' :: es')
end

/-- Checked variant of `FunctionData.rewrite`. -/
def FunctionData.rewriteChecked (off : Nat) (di : DefId) (d : FunctionData) :
    Option FunctionData :=
  match visitSpanChecked off di d.name_span with
  | none => none
  | some ns =>
    match d.body.rewriteChecked off di with
    | none => none
    | some b => some ⟨ns, d.args, b⟩

mutual
/-- Spans of an expression, in the order `RewriteSpans` visits them. -/
def spansOfExpr : Expression → List Span
  | .mk s d => s :: spansOfData d

/-- Spans of an expression payload, in visit order. -/
def spansOfData : ExpressionData → List Span
  | .Op l _ r => spansOfExpr l ++ spansOfExpr r
  | .Number _ => []
  | .Variable _ => []
  | .Call _ args => spansOfList args

/-- Spans of an expression list, in visit order. -/
def spansOfList : List Expression → List Span
  | [] => []
  | e :: es => spansOfExpr e ++ spansOfList es
end

/-- Spans nested in a `FunctionData`, in the order `FunctionData::traverse`
visits them: the `name_span`, then every span in the body. -/
def FunctionData.spans (d : FunctionData) : List Span :=
  d.name_span :: spansOfExpr d.body

/-- Spans retained in a `Program`: every span of every retained function's data. -/
def Program.spans (p : Program) : List Span :=
  p.functions.flatMap fun f => f.data.spans

/-- Shift a span forward by `k` bytes (moving the text that contains it `k`
bytes further into the file). -/
def Span.shift (k : Nat) (s : Span) : Span :=
  ⟨s.id, s.start + k, s.«end» + k⟩

mutual
/-- Shift every span of an expression forward by `k` bytes. -/
def Expression.shift (k : Nat) : Expression → Expression
  | .mk s d => .mk (s.shift k) (d.shift k)

/-- Shift every span of an expression payload forward by `k` bytes. -/
def ExpressionData.shift (k : Nat) : ExpressionData → ExpressionData
  | .Op l o r => .Op (l.shift k) o (r.shift k)
  | .Number v => .Number v
  | .Variable v => .Variable v
  | .Call f args => .Call f (Expression.shiftList k args)

/-- Shift every span of an expression list forward by `k` bytes. -/
def Expression.shiftList (k : Nat) : List Expression → List Expression
  | [] => []
  | e :: es => e.shift k :: Expression.shiftList k es
end

/-- Shift every span of a `FunctionData` forward by `k` bytes. -/
def FunctionData.shift (k : Nat) (d : FunctionData) : FunctionData :=
  ⟨d.name_span.shift k, d.args, d.body.shift k⟩

/-- Shift every span of a statement forward by `k` bytes: the statement of the
same source slice placed `k` bytes further into the file. -/
def Statement.shift (k : Nat) (st : Statement) : Statement :=
  ⟨st.span.shift k,
   match st.data with
   | .Function name d => .Function name (d.shift k)
   | .Print e => .Print (e.shift k)⟩

/-- Syntax error of the grammar engine. Modelled from the spec: the grammar
(`grammar.lalrpop`, invoked through `lalrpop_mod!(grammar)`) is not among the
sources; per spec §4.2 a failed parse "returns exactly one error carrying the
smallest offending span", with `end = start+1` and message
"unexpected character". -/
structure SyntaxError where
  start : Nat
  «end» : Nat
  message : String
deriving DecidableEq, Repr

/-- Syntax error anchored at offset `p`, with the smallest offending span
`end = start + 1` and the message the spec prescribes. -/
def errAt (p : Nat) : SyntaxError :=
  ⟨p, p + 1, "unexpected character"⟩

/-- Display of a grammar error, modelling `format!("{err}")` in
parser.rs line 63. Modelled from the spec: the spec names
"unexpected character" as the error's message, so display is the message. -/
def SyntaxError.display (e : SyntaxError) : String :=
  e.message

/-- Token kinds of the modelled lexer. Modelled from the spec: the language has
`fn` and `print` statements, identifiers, float literals, the four operators,
parentheses, commas, semicolons and `=`. -/
inductive TokenKind where
  | fn | print
  | ident (s : String)
  | num (v : Rat)
  | plus | minus | star | slash
  | lparen | rparen | comma | semi | eq
deriving DecidableEq, Repr

/-- Token with its absolute byte range. -/
structure Token where
  start : Nat
  stop : Nat
  kind : TokenKind
deriving DecidableEq, Repr

/-- Character that may start an identifier. -/
def isIdentStart (c : Char) : Bool :=
  c.isAlpha || c == '_'

/-- Character that may continue an identifier. -/
def isIdentChar (c : Char) : Bool :=
  c.isAlphanum || c == '_'

/-- Numeric value of a digit list (most significant first). -/
def digitsVal (cs : List Char) : Nat :=
  cs.foldl (fun a c => 10 * a + (c.toNat - '0'.toNat)) 0

/-- Keyword or identifier token kind for an identifier lexeme. -/
def identKind (s : String) : TokenKind :=
  if s == "fn" then .fn
  else if s == "print" then .print
  else .ident s

/-- Lexer. Modelled from the spec: produces tokens with absolute byte offsets;
on an unexpected character it stops at the first error with span
`start..start+1`. `fuel` is structural-recursion fuel; every step consumes at
least one character, so `lex` passes the character count and the fuel-exhausted
branch is unreachable from `lex`. -/
def lexAux : Nat → Nat → List Char → Except SyntaxError (List Token)
  | _, _, [] => .ok []
  | 0, pos, _ :: _ => .error (errAt pos)
  | fuel + 1, pos, c :: cs =>
    if c == ' ' || c == '\n' || c == '\t' || c == '\r' then
      lexAux fuel (pos + 1) cs
    else if c == '+' then (lexAux fuel (pos + 1) cs).map (⟨pos, pos + 1, .plus⟩ :: ·)
    else if c == '-' then (lexAux fuel (pos + 1) cs).map (⟨pos, pos + 1, .minus⟩ :: ·)
    else if c == '*' then (lexAux fuel (pos + 1) cs).map (⟨pos, pos + 1, .star⟩ :: ·)
    else if c == '/' then (lexAux fuel (pos + 1) cs).map (⟨pos, pos + 1, .slash⟩ :: ·)
    else if c == '(' then (lexAux fuel (pos + 1) cs).map (⟨pos, pos + 1, .lparen⟩ :: ·)
    else if c == ')' then (lexAux fuel (pos + 1) cs).map (⟨pos, pos + 1, .rparen⟩ :: ·)
    else if c == ',' then (lexAux fuel (pos + 1) cs).map (⟨pos, pos + 1, .comma⟩ :: ·)
    else if c == ';' then (lexAux fuel (pos + 1) cs).map (⟨pos, pos + 1, .semi⟩ :: ·)
    else if c == '=' then (lexAux fuel (pos + 1) cs).map (⟨pos, pos + 1, .eq⟩ :: ·)
    else if isIdentStart c then
      let tail := cs.takeWhile isIdentChar
      let rest := cs.dropWhile isIdentChar
      let stop := pos + 1 + tail.length
      (lexAux fuel stop rest).map (⟨pos, stop, identKind (String.mk (c :: tail))⟩ :: ·)
    else if c.isDigit then
      let ints := c :: cs.takeWhile Char.isDigit
      let rest := cs.dropWhile Char.isDigit
      match rest with
      | '.' :: d :: ds =>
        if d.isDigit then
          let frac := d :: ds.takeWhile Char.isDigit
          let rest' := ds.dropWhile Char.isDigit
          let stop := pos + ints.length + 1 + frac.length
          let v : Rat := digitsVal ints + (digitsVal frac : Rat) / ((10 : Rat) ^ frac.length)
          (lexAux fuel stop rest').map (⟨pos, stop, .num v⟩ :: ·)
        else
          let stop := pos + ints.length
          (lexAux fuel stop ('.' :: d :: ds)).map (⟨pos, stop, .num (digitsVal ints)⟩ :: ·)
      | rest' =>
        let stop := pos + ints.length
        (lexAux fuel stop rest').map (⟨pos, stop, .num (digitsVal ints)⟩ :: ·)
    else .error (errAt pos)

/-- Lexer entry point: absolute positions from 0, fuel = character count. -/
def lex (text : String) : Except SyntaxError (List Token) :=
  lexAux text.toList.length 0 text.toList

mutual
/-- Atom parser: number, variable, call or parenthesised expression. Modelled
from the spec (§4.2). `eof` is the text length, used to anchor end-of-input
errors; `fuel` is structural fuel, large enough at the entry point that the
exhaustion branches are unreachable. -/
def parseAtom (eof : Nat) : Nat → List Token → Except SyntaxError (Expression × List Token)
  | 0, _ => .error (errAt eof)
  | _ + 1, [] => .error (errAt eof)
  | fuel + 1, t :: ts =>
    match t.kind with
    | .num v => .ok (⟨⟨DefId.unknown, t.start, t.stop⟩, .Number v⟩, ts)
    | .ident s =>
      match ts with
      | t₂ :: ts₂ =>
        if t₂.kind == .lparen then
          match ts₂ with
          | t₃ :: ts₃ =>
            if t₃.kind == .rparen then
              .ok (⟨⟨DefId.unknown, t.start, t₃.stop⟩, .Call s []⟩, ts₃)
            else
              match parseArgs eof fuel ts₂ with
              | .error e => .error e
              | .ok (args, stop, rest) =>
                .ok (⟨⟨DefId.unknown, t.start, stop⟩, .Call s args⟩, rest)
          | [] => .error (errAt eof)
        else .ok (⟨⟨DefId.unknown, t.start, t.stop⟩, .Variable s⟩, ts)
      | [] => .ok (⟨⟨DefId.unknown, t.start, t.stop⟩, .Variable s⟩, ts)
    | .lparen =>
      match parseExpr eof fuel ts with
      | .error e => .error e
      | .ok (e, rest) =>
        match rest with
        | t₂ :: ts₂ => if t₂.kind == .rparen then .ok (e, ts₂) else .error (errAt t₂.start)
        | [] => .error (errAt eof)
    | _ => .error (errAt t.start)

/-- Call-argument list parser: one or more comma-separated expressions followed
by `)`. Returns the arguments, the closing parenthesis's stop offset and the
remaining tokens. -/
def parseArgs (eof : Nat) : Nat → List Token → Except SyntaxError (List Expression × Nat × List Token)
  | 0, _ => .error (errAt eof)
  | fuel + 1, ts =>
    match parseExpr eof fuel ts with
    | .error e => .error e
    | .ok (e, rest) =>
      match rest with
      | t :: ts' =>
        if t.kind == .comma then
          match parseArgs eof fuel ts' with
          | .error e => .error e
          | .ok (es, stop, rest') => .ok (e :: es, stop, rest')
        else if t.kind == .rparen then .ok ([e], t.stop, ts')
        else .error (errAt t.start)
      | [] => .error (errAt eof)

/-- Multiplicative-level parser: left-associative `*` and `/` over atoms. -/
def parseTerm (eof : Nat) : Nat → List Token → Except SyntaxError (Expression × List Token)
  | 0, _ => .error (errAt eof)
  | fuel + 1, ts =>
    match parseAtom eof fuel ts with
    | .error e => .error e
    | .ok (l, rest) => parseTermLoop eof fuel l rest

/-- Left-associative fold of further `* atom` / `/ atom` onto `l`. -/
def parseTermLoop (eof : Nat) : Nat → Expression → List Token → Except SyntaxError (Expression × List Token)
  | 0, _, _ => .error (errAt eof)
  | _ + 1, l, [] => .ok (l, [])
  | fuel + 1, l, t :: ts =>
    let core : Op → Except SyntaxError (Expression × List Token) := fun o =>
      match parseAtom eof fuel ts with
      | .error e => .error e
      | .ok (r, rest) =>
        parseTermLoop eof fuel ⟨⟨DefId.unknown, l.span.start, r.span.«end»⟩, .Op l o r⟩ rest
    if t.kind == .star then core .Multiply
    else if t.kind == .slash then core .Divide
    else .ok (l, t :: ts)

/-- Additive-level parser: left-associative `+` and `-` over terms. Operator
precedence modelled from the spec: additive below multiplicative. -/
def parseExpr (eof : Nat) : Nat → List Token → Except SyntaxError (Expression × List Token)
  | 0, _ => .error (errAt eof)
  | fuel + 1, ts =>
    match parseTerm eof fuel ts with
    | .error e => .error e
    | .ok (l, rest) => parseExprLoop eof fuel l rest

/-- Left-associative fold of further `+ term` / `- term` onto `l`. -/
def parseExprLoop (eof : Nat) : Nat → Expression → List Token → Except SyntaxError (Expression × List Token)
  | 0, _, _ => .error (errAt eof)
  | _ + 1, l, [] => .ok (l, [])
  | fuel + 1, l, t :: ts =>
    let core : Op → Except SyntaxError (Expression × List Token) := fun o =>
      match parseTerm eof fuel ts with
      | .error e => .error e
      | .ok (r, rest) =>
        parseExprLoop eof fuel ⟨⟨DefId.unknown, l.span.start, r.span.«end»⟩, .Op l o r⟩ rest
    if t.kind == .plus then core .Add
    else if t.kind == .minus then core .Subtract
    else .ok (l, t :: ts)
end

/-- Parameter-list parser for `fn` definitions: zero or more comma-separated
identifiers followed by `)`. Returns the parameters and the remaining tokens. -/
def parseParams (eof : Nat) : Nat → List Token → Except SyntaxError (List VariableId × List Token)
  | 0, _ => .error (errAt eof)
  | fuel + 1, ts =>
    match ts with
    | [] => .error (errAt eof)
    | t :: ts' =>
      match t.kind with
      | .rparen => .ok ([], ts')
      | .ident s =>
        match ts' with
        | [] => .error (errAt eof)
        | t₂ :: ts₂ =>
          if t₂.kind == .comma then
            match parseParams eof fuel ts₂ with
            | .error e => .error e
            | .ok (ps, rest) => .ok (s :: ps, rest)
          else if t₂.kind == .rparen then .ok ([s], ts₂)
          else .error (errAt t₂.start)
      | _ => .error (errAt t.start)

/-- Statement parser: `print <expr> ;` or `fn <name> ( <params> ) = <expr> ;`.
Spans are absolute and carry the shared placeholder `DefId::unknown`, per the
spec (§4.2). -/
def parseStatement (eof : Nat) (fuel : Nat) :
    List Token → Except SyntaxError (Statement × List Token)
  | [] => .error (errAt eof)
  | t :: ts =>
    match t.kind with
    | .print =>
      match parseExpr eof fuel ts with
      | .error e => .error e
      | .ok (e, rest) =>
        match rest with
        | t₂ :: ts₂ =>
          if t₂.kind == .semi then
            .ok (⟨⟨DefId.unknown, t.start, t₂.stop⟩, .Print e⟩, ts₂)
          else .error (errAt t₂.start)
        | [] => .error (errAt eof)
    | .fn =>
      match ts with
      | tName :: tLp :: ts₂ =>
        match tName.kind with
        | .ident name =>
          if tLp.kind == .lparen then
            match parseParams eof fuel ts₂ with
            | .error e => .error e
            | .ok (params, rest) =>
              match rest with
              | tEq :: ts₃ =>
                if tEq.kind == .eq then
                  match parseExpr eof fuel ts₃ with
                  | .error e => .error e
                  | .ok (body, rest') =>
                    match rest' with
                    | tSemi :: ts₄ =>
                      if tSemi.kind == .semi then
                        .ok (⟨⟨DefId.unknown, t.start, tSemi.stop⟩,
                              .Function name
                                ⟨⟨DefId.unknown, tName.start, tName.stop⟩, params, body⟩⟩, ts₄)
                      else .error (errAt tSemi.start)
                    | [] => .error (errAt eof)
                else .error (errAt tEq.start)
              | [] => .error (errAt eof)
          else .error (errAt tLp.start)
        | _ => .error (errAt tName.start)
      | [t₂] =>
        match t₂.kind with
        | .ident _ => .error (errAt eof)
        | _ => .error (errAt t₂.start)
      | [] => .error (errAt eof)
    | _ => .error (errAt t.start)

/-- Statement-sequence parser: statements until the end of the tokens. -/
def parseStmts (eof : Nat) : Nat → List Token → Except SyntaxError (List Statement)
  | 0, _ => .error (errAt eof)
  | _ + 1, [] => .ok []
  | fuel + 1, ts =>
    match parseStatement eof fuel ts with
    | .error e => .error e
    | .ok (st, rest) =>
      match parseStmts eof fuel rest with
      | .error e => .error e
      | .ok sts => .ok (st :: sts)

/-- Grammar engine entry point, modelling `grammar::ProgramParser::new().parse`
(parser.rs line 33). Modelled from the spec: the grammar itself is an external
black box that "given source text, either yields a sequence of statements with
absolute byte-offset spans or a syntax error with a single offset range". -/
def grammar.parse (text : String) : Except SyntaxError (List Statement) :=
  match lex text with
  | .error e => .error e
  | .ok toks => parseStmts text.toList.length (4 * toks.length + 4) toks

/-- Retention of one parsed statement by `parse_statements` (parser.rs lines
38-54): a `Function` statement has its payload's spans rewritten relative to the
statement's start and tagged `DefId::Function(name)`, and is kept; any other
statement is dropped. -/
def retainFunction (st : Statement) : Option Function :=
  match st.data with
  | .Function name data =>
    some ⟨name, data.rewrite st.span.start (DefIdData.Function name)⟩
  | _ => none

/-- parse_statements (parser.rs lines 29-69). Returns the retained `Program`
together with the diagnostics pushed to the `Diagnostics` accumulator during the
run: none on a successful parse, and on a failed parse exactly one diagnostic
whose `start` and `end` are the literals `0` and `0` (parser.rs lines 60-64) and
whose message is the error's display. -/
def parse_statements (source : String) : Program × List Diagnostic :=
  match grammar.parse source with
  | .ok stmts => (⟨stmts.filterMap retainFunction⟩, [])
  | .error err => (⟨[]⟩, [⟨0, 0, err.display⟩])

/-- Whether a statement is a function definition. -/
def StatementData.isFunctionDef : StatementData → Bool
  | .Function _ _ => true
  | .Print _ => false

/-- Name of the function a statement defines, if it is a function definition. -/
def Statement.defName (st : Statement) : Option FunctionId :=
  match st.data with
  | .Function name _ => some name
  | .Print _ => none

/-- Span-free skeleton of an expression, used to state how a source string
parses independently of the concrete offsets. -/
inductive ExprShape where
  | op (l : ExprShape) (o : Op) (r : ExprShape)
  | num (v : Rat)
  | var (v : String)
  | call (f : String) (args : List ExprShape)
deriving Repr

mutual
/-- Skeleton of an expression. -/
def Expression.shape : Expression → ExprShape
  | .mk _ d => d.shape

/-- Skeleton of an expression payload. -/
def ExpressionData.shape : ExpressionData → ExprShape
  | .Op l o r => .op l.shape o r.shape
  | .Number v => .num v
  | .Variable v => .var v
  | .Call f args => .call f (Expression.shapeList args)

/-- Skeletons of an expression list. -/
def Expression.shapeList : List Expression → List ExprShape
  | [] => []
  | e :: es => e.shape :: Expression.shapeList es
end

/-- Skeleton of the expression a `print` statement prints, if any. -/
def Statement.printShape (st : Statement) : Option ExprShape :=
  match st.data with
  | .Print e => some e.shape
  | .Function _ _ => none

mutual
/-- Rewriting an expression maps `visitSpan` over its spans, in visit order. -/
theorem spansOfExpr_rewrite (off : Nat) (di : DefId) (e : Expression) :
    spansOfExpr (e.rewrite off di) = (spansOfExpr e).map (visitSpan off di) := by
  cases e with
  | mk s d => simp [Expression.rewrite, spansOfExpr, spansOfData_rewrite off di d]

/-- Rewriting an expression payload maps `visitSpan` over its spans. -/
theorem spansOfData_rewrite (off : Nat) (di : DefId) (d : ExpressionData) :
    spansOfData (d.rewrite off di) = (spansOfData d).map (visitSpan off di) := by
  cases d with
  | Op l o r =>
    simp [ExpressionData.rewrite, spansOfData, spansOfExpr_rewrite off di l,
      spansOfExpr_rewrite off di r]
  | Number v => simp [ExpressionData.rewrite, spansOfData]
  | Variable v => simp [ExpressionData.rewrite, spansOfData]
  | Call f args =>
    simp [ExpressionData.rewrite, spansOfData, spansOfList_rewrite off di args]

/-- Rewriting an expression list maps `visitSpan` over its spans. -/
theorem spansOfList_rewrite (off : Nat) (di : DefId) (l : List Expression) :
    spansOfList (Expression.rewriteList off di l) = (spansOfList l).map (visitSpan off di) := by
  cases l with
  | nil => simp [Expression.rewriteList, spansOfList]
  | cons e es =>
    simp [Expression.rewriteList, spansOfList, spansOfExpr_rewrite off di e,
      spansOfList_rewrite off di es]
end

/-- Rewriting a `FunctionData` maps `visitSpan` over its spans (the `name_span`
and every span in the body), in visit order. -/
theorem FunctionData.spans_rewrite (off : Nat) (di : DefId) (d : FunctionData) :
    (FunctionData.rewrite off di d).spans = d.spans.map (visitSpan off di) := by
  simp [FunctionData.rewrite, FunctionData.spans, spansOfExpr_rewrite]

/-- Subtracting a common shift before localizing cancels: a span moved forward
by `k` and localized to an owner moved forward by `k` is the original
localization. -/
theorem visitSpan_shift (a k : Nat) (di : DefId) (s : Span) :
    visitSpan (a + k) di (s.shift k) = visitSpan a di s := by
  simp [visitSpan, Span.shift, Nat.add_sub_add_right]

mutual
/-- Shift cancellation for expression rewriting. -/
theorem rewriteExprE_shift (a k : Nat) (di : DefId) (e : Expression) :
    Expression.rewrite (a + k) di (e.shift k) = Expression.rewrite a di e := by
  cases e with
  | mk s d =>
    simp [Expression.shift, Expression.rewrite, visitSpan_shift,
      rewriteDataE_shift a k di d]

/-- Shift cancellation for payload rewriting. -/
theorem rewriteDataE_shift (a k : Nat) (di : DefId) (d : ExpressionData) :
    ExpressionData.rewrite (a + k) di (d.shift k) = ExpressionData.rewrite a di d := by
  cases d with
  | Op l o r =>
    simp [ExpressionData.shift, ExpressionData.rewrite,
      rewriteExprE_shift a k di l, rewriteExprE_shift a k di r]
  | Number v => simp [ExpressionData.shift, ExpressionData.rewrite]
  | Variable v => simp [ExpressionData.shift, ExpressionData.rewrite]
  | Call f args =>
    simp [ExpressionData.shift, ExpressionData.rewrite,
      rewriteListE_shift a k di args]

/-- Shift cancellation for argument-list rewriting. -/
theorem rewriteListE_shift (a k : Nat) (di : DefId) (l : List Expression) :
    Expression.rewriteList (a + k) di (Expression.shiftList k l) =
      Expression.rewriteList a di l := by
  cases l with
  | nil => simp [Expression.shiftList, Expression.rewriteList]
  | cons e es =>
    simp [Expression.shiftList, Expression.rewriteList, rewriteExprE_shift a k di e,
      rewriteListE_shift a k di es]
end

/-- Shift cancellation for `FunctionData` rewriting: localizing relative to the
statement start is invariant under moving the whole statement by `k` bytes. -/
theorem rewriteFnData_shift (a k : Nat) (di : DefId) (d : FunctionData) :
    FunctionData.rewrite (a + k) di (d.shift k) = FunctionData.rewrite a di d := by
  simp [FunctionData.shift, FunctionData.rewrite, visitSpan_shift,
    rewriteExprE_shift]

/-- Retention is invariant under shifting a statement: the retained `Function`
(and in particular its localized `FunctionData`) depends only on the statement's
own slice, not on its absolute position. -/
theorem retainFunction_shift (k : Nat) (st : Statement) :
    retainFunction (st.shift k) = retainFunction st := by
  cases st with
  | mk sp d =>
    cases d with
    | Function name data =>
      simp [Statement.shift, retainFunction, Span.shift, rewriteFnData_shift]
    | Print e => simp [Statement.shift, retainFunction]

/-- Unfolding lemma: the checked span rewrite succeeds exactly on spans whose
endpoints are at least the subtracted offset, and then agrees with `visitSpan`. -/
theorem visitSpanChecked_eq_some (off : Nat) (di : DefId) (s : Span)
    (h₁ : off ≤ s.start) (h₂ : off ≤ s.«end») :
    visitSpanChecked off di s = some (visitSpan off di s) := by
  simp [visitSpanChecked, visitSpan, Nat.not_lt.mpr h₁, Nat.not_lt.mpr h₂]

mutual
/-- Under the no-underflow precondition on every span of an expression, the
checked rewrite takes no panic branch and agrees with the unchecked one. -/
theorem rewriteCheckedExprE_eq_some (off : Nat) (di : DefId) (e : Expression)
    (h : ∀ s ∈ spansOfExpr e, off ≤ s.start ∧ off ≤ s.«end») :
    Expression.rewriteChecked off di e = some (Expression.rewrite off di e) := by
  cases e with
  | mk s d =>
    have hs := h s (by simp [spansOfExpr])
    have hd := rewriteCheckedDataE_eq_some off di d
      (fun s' hs' => h s' (by simp [spansOfExpr, hs']))
    simp [Expression.rewriteChecked, Expression.rewrite,
      visitSpanChecked_eq_some off di s hs.1 hs.2, hd]

/-- Payload version of `rewriteCheckedExprE_eq_some`. -/
theorem rewriteCheckedDataE_eq_some (off : Nat) (di : DefId) (d : ExpressionData)
    (h : ∀ s ∈ spansOfData d, off ≤ s.start ∧ off ≤ s.«end») :
    ExpressionData.rewriteChecked off di d = some (ExpressionData.rewrite off di d) := by
  cases d with
  | Op l o r =>
    have hl := rewriteCheckedExprE_eq_some off di l
      (fun s hs => h s (by simp [spansOfData, hs]))
    have hr := rewriteCheckedExprE_eq_some off di r
      (fun s hs => h s (by simp [spansOfData, hs]))
    simp [ExpressionData.rewriteChecked, ExpressionData.rewrite, hl, hr]
  | Number v => simp [ExpressionData.rewriteChecked, ExpressionData.rewrite]
  | Variable v => simp [ExpressionData.rewriteChecked, ExpressionData.rewrite]
  | Call f args =>
    have ha := rewriteCheckedListE_eq_some off di args
      (fun s hs => h s (by simp [spansOfData, hs]))
    simp [ExpressionData.rewriteChecked, ExpressionData.rewrite, ha]

/-- List version of `rewriteCheckedExprE_eq_some`. -/
theorem rewriteCheckedListE_eq_some (off : Nat) (di : DefId) (l : List Expression)
    (h : ∀ s ∈ spansOfList l, off ≤ s.start ∧ off ≤ s.«end») :
    Expression.rewriteCheckedList off di l = some (Expression.rewriteList off di l) := by
  cases l with
  | nil => simp [Expression.rewriteCheckedList, Expression.rewriteList]
  | cons e es =>
    have he := rewriteCheckedExprE_eq_some off di e
      (fun s hs => h s (by simp [spansOfList, hs]))
    have hes := rewriteCheckedListE_eq_some off di es
      (fun s hs => h s (by simp [spansOfList, hs]))
    simp [Expression.rewriteCheckedList, Expression.rewriteList, he, hes]
end

mutual
/-- Conversely, when the checked rewrite of an expression succeeds, every span
satisfied the no-underflow precondition. -/
theorem preExprE_of_rewriteChecked (off : Nat) (di : DefId) (e : Expression)
    (h : (Expression.rewriteChecked off di e).isSome) :
    ∀ s ∈ spansOfExpr e, off ≤ s.start ∧ off ≤ s.«end» := by
  cases e with
  | mk s d =>
    revert h
    unfold Expression.rewriteChecked
    cases hs : visitSpanChecked off di s with
    | none => intro h; simp at h
    | some s' =>
      cases hd : ExpressionData.rewriteChecked off di d with
      | none => intro h; simp at h
      | some d' =>
        intro _
        have hpre : off ≤ s.start ∧ off ≤ s.«end» := by
          by_contra hc
          rw [not_and_or, Nat.not_le, Nat.not_le] at hc
          rcases hc with hc | hc <;> simp [visitSpanChecked, hc] at hs
        intro s'' hs''
        rw [spansOfExpr] at hs''
        rcases List.mem_cons.mp hs'' with rfl | hmem
        · exact hpre
        · exact preDataE_of_rewriteChecked off di d (by simp [hd]) s'' hmem

/-- Payload version of `preExprE_of_rewriteChecked`. -/
theorem preDataE_of_rewriteChecked (off : Nat) (di : DefId) (d : ExpressionData)
    (h : (ExpressionData.rewriteChecked off di d).isSome) :
    ∀ s ∈ spansOfData d, off ≤ s.start ∧ off ≤ s.«end» := by
  cases d with
  | Op l o r =>
    revert h
    unfold ExpressionData.rewriteChecked
    cases hl : Expression.rewriteChecked off di l with
    | none => intro h; simp at h
    | some l' =>
      cases hr : Expression.rewriteChecked off di r with
      | none => intro h; simp at h
      | some r' =>
        intro _ s hs
        rw [spansOfData] at hs
        rcases List.mem_append.mp hs with hm | hm
        · exact preExprE_of_rewriteChecked off di l (by simp [hl]) s hm
        · exact preExprE_of_rewriteChecked off di r (by simp [hr]) s hm
  | Number v => intro s hs; simp [spansOfData] at hs
  | Variable v => intro s hs; simp [spansOfData] at hs
  | Call f args =>
    revert h
    unfold ExpressionData.rewriteChecked
    cases ha : Expression.rewriteCheckedList off di args with
    | none => intro h; simp at h
    | some args' =>
      intro _ s hs
      rw [spansOfData] at hs
      exact preListE_of_rewriteChecked off di args (by simp [ha]) s hs

/-- List version of `preExprE_of_rewriteChecked`. -/
theorem preListE_of_rewriteChecked (off : Nat) (di : DefId) (l : List Expression)
    (h : (Expression.rewriteCheckedList off di l).isSome) :
    ∀ s ∈ spansOfList l, off ≤ s.start ∧ off ≤ s.«end» := by
  cases l with
  | nil => intro s hs; simp [spansOfList] at hs
  | cons e es =>
    revert h
    unfold Expression.rewriteCheckedList
    cases he : Expression.rewriteChecked off di e with
    | none => intro h; simp at h
    | some e' =>
      cases hes : Expression.rewriteCheckedList off di es with
      | none => intro h; simp at h
      | some es' =>
        intro _ s hs
        rw [spansOfList] at hs
        rcases List.mem_append.mp hs with hm | hm
        · exact preExprE_of_rewriteChecked off di e (by simp [he]) s hm
        · exact preListE_of_rewriteChecked off di es (by simp [hes]) s hm
end

/-- FunctionData version of the checked-rewrite agreement. -/
theorem rewriteCheckedFnData_eq_some (off : Nat) (di : DefId) (d : FunctionData)
    (h : ∀ s ∈ d.spans, off ≤ s.start ∧ off ≤ s.«end») :
    FunctionData.rewriteChecked off di d = some (FunctionData.rewrite off di d) := by
  have hn := h d.name_span (by simp [FunctionData.spans])
  have hb := rewriteCheckedExprE_eq_some off di d.body
    (fun s hs => h s (by simp [FunctionData.spans, hs]))
  simp [FunctionData.rewriteChecked, FunctionData.rewrite,
    visitSpanChecked_eq_some off di d.name_span hn.1 hn.2, hb]

/-- FunctionData version of the checked-rewrite converse. -/
theorem preFnData_of_rewriteChecked (off : Nat) (di : DefId) (d : FunctionData)
    (h : (FunctionData.rewriteChecked off di d).isSome) :
    ∀ s ∈ d.spans, off ≤ s.start ∧ off ≤ s.«end» := by
  revert h
  unfold FunctionData.rewriteChecked
  cases hn : visitSpanChecked off di d.name_span with
  | none => intro h; simp at h
  | some ns =>
    cases hb : Expression.rewriteChecked off di d.body with
    | none => intro h; simp at h
    | some b =>
      intro _ s hs
      rw [FunctionData.spans] at hs
      rcases List.mem_cons.mp hs with rfl | hmem
      · by_contra hc
        rw [not_and_or, Nat.not_le, Nat.not_le] at hc
        rcases hc with hc | hc <;> simp [visitSpanChecked, hc] at hn
      · exact preExprE_of_rewriteChecked off di d.body (by simp [hb]) s hmem

/-- Retention keeps exactly the function-definition statements. -/
theorem retainFunction_isSome (st : Statement) :
    (retainFunction st).isSome = st.data.isFunctionDef := by
  cases st with
  | mk sp d => cases d <;> simp [retainFunction, StatementData.isFunctionDef]

/-- Name of the retained function is the statement's defined name. -/
theorem retainFunction_name (st : Statement) :
    (retainFunction st).map Function.name = st.defName := by
  cases st with
  | mk sp d => cases d <;> simp [retainFunction, Statement.defName]

/-- Length of the retained function list: one entry per function-definition
statement. -/
theorem filterMap_retain_length (stmts : List Statement) :
    (stmts.filterMap retainFunction).length =
      stmts.countP (fun st => st.data.isFunctionDef) := by
  induction stmts with
  | nil => rfl
  | cons st sts ih =>
    rw [List.filterMap_cons, List.countP_cons]
    cases hst : retainFunction st with
    | none =>
      have hf : st.data.isFunctionDef = false := by
        have h := retainFunction_isSome st
        rw [hst] at h
        simpa using h.symm
      simp [hf, ih]
    | some f =>
      have hf : st.data.isFunctionDef = true := by
        have h := retainFunction_isSome st
        rw [hst] at h
        simpa using h.symm
      simp [hf, ih]

/-- C1: the claim says parsing "print 1 + + 2" produces exactly one diagnostic
anchored at the unexpected second `+` (start 10, end 11) with message
"unexpected character". The grammar error is indeed anchored there, but
`parse_statements` (parser.rs lines 60-64) pushes the diagnostic with the
literals `start: 0, end: 0`, discarding the error's offsets, so the produced
diagnostic's span is 0..0, not 10..11 — contradicting the repo's own
expect-test `parse_error` (parser.rs lines 334-354). -/
theorem C1_error_diagnostic_hardcodes_zero_span :
    grammar.parse "print 1 + + 2" = .error ⟨10, 11, "unexpected character"⟩ ∧
    parse_statements "print 1 + + 2" = (⟨[]⟩, [⟨0, 0, "unexpected character"⟩]) ∧
    (parse_statements "print 1 + + 2").2 ≠ [⟨10, 11, "unexpected character"⟩] :=
  ⟨rfl, rfl, by decide⟩

/-- C2: for every top-level function-defining statement of a successfully
parsed program, the retained `FunctionData`'s spans (the `name_span` and every
expression span in the body) are exactly the original spans with
`new_start = old_start - statement_start`, `new_end = old_end - statement_start`
and `DefId = Function(name)`. -/
theorem C2_spans_localized (t : String) (stmts : List Statement) (st : Statement)
    (name : FunctionId) (d : FunctionData)
    (hp : grammar.parse t = .ok stmts) (hm : st ∈ stmts)
    (hd : st.data = .Function name d) :
    ∃ f ∈ (parse_statements t).1.functions,
      f.name = name ∧
      f.data.spans = d.spans.map
        (fun s => ⟨DefIdData.Function name, s.start - st.span.start,
          s.«end» - st.span.start⟩) := by
  refine ⟨⟨name, FunctionData.rewrite st.span.start (DefIdData.Function name) d⟩, ?_, rfl, ?_⟩
  · simp only [parse_statements, hp]
    exact List.mem_filterMap.mpr ⟨st, hm, by simp [retainFunction, hd]⟩
  · exact FunctionData.spans_rewrite st.span.start (DefIdData.Function name) d

/-- Witness for C2 at the source " fn f(x) = x;" (statement start 1, name span
4..5, body span 11..12). -/
theorem C2_spans_localized_witness :
    ∃ f ∈ (parse_statements " fn f(x) = x;").1.functions,
      f.name = "f" ∧
      f.data.spans = ([⟨DefId.unknown, 4, 5⟩, ⟨DefId.unknown, 11, 12⟩] : List Span).map
        (fun s => ⟨DefIdData.Function "f", s.start - 1, s.«end» - 1⟩) :=
  C2_spans_localized " fn f(x) = x;"
    [⟨⟨DefId.unknown, 1, 13⟩, .Function "f"
      ⟨⟨DefId.unknown, 4, 5⟩, ["x"], .mk ⟨DefId.unknown, 11, 12⟩ (.Variable "x")⟩⟩]
    ⟨⟨DefId.unknown, 1, 13⟩, .Function "f"
      ⟨⟨DefId.unknown, 4, 5⟩, ["x"], .mk ⟨DefId.unknown, 11, 12⟩ (.Variable "x")⟩⟩
    "f" ⟨⟨DefId.unknown, 4, 5⟩, ["x"], .mk ⟨DefId.unknown, 11, 12⟩ (.Variable "x")⟩
    rfl (List.mem_singleton.mpr rfl) rfl

/-- C3: when two parses contain the same function-defining statement up to a
uniform offset shift `k` — which is what an identical text slice at a shifted
absolute position yields, the grammar being a black box emitting absolute
spans — the retained `Function` (name and localized `FunctionData`) is equal,
and `parse_statements` keeps that same value in both programs: spans are
relative to the function's own start, not the file start. -/
theorem C3_function_locality (t₁ t₂ : String) (s₁ s₂ : List Statement)
    (st : Statement) (k : Nat) (name : FunctionId) (d : FunctionData)
    (hp₁ : grammar.parse t₁ = .ok s₁) (hp₂ : grammar.parse t₂ = .ok s₂)
    (hm₁ : st ∈ s₁) (hm₂ : st.shift k ∈ s₂) (hd : st.data = .Function name d) :
    retainFunction (st.shift k) = retainFunction st ∧
    ∃ f, retainFunction st = some f ∧
      f ∈ (parse_statements t₁).1.functions ∧
      f ∈ (parse_statements t₂).1.functions := by
  refine ⟨retainFunction_shift k st,
    ⟨name, FunctionData.rewrite st.span.start (DefIdData.Function name) d⟩, ?_, ?_, ?_⟩
  · simp [retainFunction, hd]
  · simp only [parse_statements, hp₁]
    exact List.mem_filterMap.mpr ⟨st, hm₁, by simp [retainFunction, hd]⟩
  · simp only [parse_statements, hp₂]
    exact List.mem_filterMap.mpr ⟨st.shift k, hm₂, by
      rw [retainFunction_shift]; simp [retainFunction, hd]⟩

/-- Witness for C3: the sources "fn f(x) = x; print f(1);" and
"print 9; fn f(x) = x; print f(1);" contain the same `fn f` slice at offsets
0 and 9; the retained function is identical in both programs. -/
theorem C3_function_locality_witness :
    retainFunction (Statement.shift 9
      ⟨⟨DefId.unknown, 0, 12⟩, .Function "f"
        ⟨⟨DefId.unknown, 3, 4⟩, ["x"], .mk ⟨DefId.unknown, 10, 11⟩ (.Variable "x")⟩⟩) =
      retainFunction
      ⟨⟨DefId.unknown, 0, 12⟩, .Function "f"
        ⟨⟨DefId.unknown, 3, 4⟩, ["x"], .mk ⟨DefId.unknown, 10, 11⟩ (.Variable "x")⟩⟩ ∧
    ∃ f, retainFunction
      ⟨⟨DefId.unknown, 0, 12⟩, .Function "f"
        ⟨⟨DefId.unknown, 3, 4⟩, ["x"], .mk ⟨DefId.unknown, 10, 11⟩ (.Variable "x")⟩⟩ = some f ∧
      f ∈ (parse_statements "fn f(x) = x; print f(1);").1.functions ∧
      f ∈ (parse_statements "print 9; fn f(x) = x; print f(1);").1.functions :=
  C3_function_locality "fn f(x) = x; print f(1);" "print 9; fn f(x) = x; print f(1);"
    [⟨⟨DefId.unknown, 0, 12⟩, .Function "f"
        ⟨⟨DefId.unknown, 3, 4⟩, ["x"], .mk ⟨DefId.unknown, 10, 11⟩ (.Variable "x")⟩⟩,
     ⟨⟨DefId.unknown, 13, 24⟩, .Print
        (.mk ⟨DefId.unknown, 19, 23⟩
          (.Call "f" [.mk ⟨DefId.unknown, 21, 22⟩ (.Number 1)]))⟩]
    [⟨⟨DefId.unknown, 0, 8⟩, .Print (.mk ⟨DefId.unknown, 6, 7⟩ (.Number 9))⟩,
     ⟨⟨DefId.unknown, 9, 21⟩, .Function "f"
        ⟨⟨DefId.unknown, 12, 13⟩, ["x"], .mk ⟨DefId.unknown, 19, 20⟩ (.Variable "x")⟩⟩,
     ⟨⟨DefId.unknown, 22, 33⟩, .Print
        (.mk ⟨DefId.unknown, 28, 32⟩
          (.Call "f" [.mk ⟨DefId.unknown, 30, 31⟩ (.Number 1)]))⟩]
    ⟨⟨DefId.unknown, 0, 12⟩, .Function "f"
        ⟨⟨DefId.unknown, 3, 4⟩, ["x"], .mk ⟨DefId.unknown, 10, 11⟩ (.Variable "x")⟩⟩
    9 "f" ⟨⟨DefId.unknown, 3, 4⟩, ["x"], .mk ⟨DefId.unknown, 10, 11⟩ (.Variable "x")⟩
    rfl rfl (by decide) (by decide) rfl

/-- C4: whenever the grammar fails on an input, `parse_statements` returns a
`Program` with an empty functions list and pushes exactly one diagnostic. -/
theorem C4_failed_parse_empty_program (t : String) (e : SyntaxError)
    (h : grammar.parse t = .error e) :
    (parse_statements t).1.functions = [] ∧ (parse_statements t).2.length = 1 := by
  simp [parse_statements, h]

/-- Witness for C4 at the truncated input "fn". -/
theorem C4_failed_parse_empty_program_witness :
    (parse_statements "fn").1.functions = [] ∧ (parse_statements "fn").2.length = 1 :=
  C4_failed_parse_empty_program "fn" ⟨2, 3, "unexpected character"⟩ rfl

/-- C5: on a successful parse the retained `Program` holds exactly one
`Function` per function-definition statement and nothing else; every retained
function comes from some statement, and `print` statements contribute none. -/
theorem C5_one_function_per_def (t : String) (stmts : List Statement)
    (hp : grammar.parse t = .ok stmts) :
    (parse_statements t).1.functions.length =
      stmts.countP (fun st => st.data.isFunctionDef) ∧
    ∀ f ∈ (parse_statements t).1.functions, ∃ st ∈ stmts, retainFunction st = some f := by
  constructor
  · simp only [parse_statements, hp]
    exact filterMap_retain_length stmts
  · intro f hf
    simp only [parse_statements, hp] at hf
    exact List.mem_filterMap.mp hf

/-- Witness for C5 at "print 1; fn g() = 2;": one function definition, one
retained function. -/
theorem C5_one_function_per_def_witness :
    (parse_statements "print 1; fn g() = 2;").1.functions.length =
      ([⟨⟨DefId.unknown, 0, 8⟩, .Print (.mk ⟨DefId.unknown, 6, 7⟩ (.Number 1))⟩,
        ⟨⟨DefId.unknown, 9, 20⟩, .Function "g"
          ⟨⟨DefId.unknown, 12, 13⟩, [], .mk ⟨DefId.unknown, 18, 19⟩ (.Number 2)⟩⟩] :
        List Statement).countP (fun st => st.data.isFunctionDef) ∧
    ∀ f ∈ (parse_statements "print 1; fn g() = 2;").1.functions,
      ∃ st ∈ ([⟨⟨DefId.unknown, 0, 8⟩, .Print (.mk ⟨DefId.unknown, 6, 7⟩ (.Number 1))⟩,
        ⟨⟨DefId.unknown, 9, 20⟩, .Function "g"
          ⟨⟨DefId.unknown, 12, 13⟩, [], .mk ⟨DefId.unknown, 18, 19⟩ (.Number 2)⟩⟩] :
        List Statement), retainFunction st = some f :=
  C5_one_function_per_def "print 1; fn g() = 2;" _ rfl

/-- C6: additive operators bind looser than multiplicative ones and both levels
associate to the left: "print 1 + 2 * 3 + 4;" parses as `((1 + (2*3)) + 4)`,
"print 1 - 2 - 3;" as `((1-2)-3)` and "print 8 / 4 / 2;" as `((8/4)/2)`. -/
theorem C6_operator_precedence :
    (grammar.parse "print 1 + 2 * 3 + 4;").map (fun l => l.map Statement.printShape) =
      .ok [some (.op (.op (.num 1) .Add (.op (.num 2) .Multiply (.num 3))) .Add (.num 4))] ∧
    (grammar.parse "print 1 - 2 - 3;").map (fun l => l.map Statement.printShape) =
      .ok [some (.op (.op (.num 1) .Subtract (.num 2)) .Subtract (.num 3))] ∧
    (grammar.parse "print 8 / 4 / 2;").map (fun l => l.map Statement.printShape) =
      .ok [some (.op (.op (.num 8) .Divide (.num 4)) .Divide (.num 2))] :=
  ⟨rfl, rfl, rfl⟩

/-- C7: the span localizer's rewrite preserves the invariant `start ≤ end`:
whenever the `usize` subtraction of the same offset from both endpoints
actually completes — no underflow, i.e. the faithful checked model
`visitSpanChecked` returns `some` rather than taking the panic branch — a span
with `start ≤ end` is rewritten to a span with `start ≤ end`. In addition,
every span of a concretely parsed program satisfies the invariant. -/
theorem C7_span_invariant_preserved :
    (∀ (off : Nat) (di : DefId) (s s' : Span),
      visitSpanChecked off di s = some s' → s.start ≤ s.«end» →
      s'.start ≤ s'.«end») ∧
    (∀ s ∈ (parse_statements "fn f(x) = x * 2; print f(3);").1.spans,
      s.start ≤ s.«end») := by
  refine ⟨fun off di s s' hc h => ?_, by decide⟩
  rw [visitSpanChecked] at hc
  by_cases h₁ : s.start < off
  · simp [h₁] at hc
  · by_cases h₂ : s.«end» < off
    · simp [h₁, h₂] at hc
    · simp only [if_neg h₁, if_neg h₂, Option.some.injEq] at hc
      rw [← hc]
      exact Nat.sub_le_sub_right h off

/-- Witness for C7: the span 7..9 localized by offset 5 completes without
underflow and yields 2..4, which keeps `start ≤ end`. -/
theorem C7_span_invariant_preserved_witness :
    (⟨DefId.unknown, 2, 4⟩ : Span).start ≤ (⟨DefId.unknown, 2, 4⟩ : Span).«end» :=
  C7_span_invariant_preserved.1 5 DefId.unknown ⟨DefId.unknown, 7, 9⟩
    ⟨DefId.unknown, 2, 4⟩ (by decide) (by decide)

/-- C8: `parse_statements` is deterministic — identical source text yields a
structurally equal `Program` and an identical diagnostic list. -/
theorem C8_deterministic (t₁ t₂ : String) (h : t₁ = t₂) :
    parse_statements t₁ = parse_statements t₂ := by
  rw [h]

/-- Witness for C8 on the text "print 1 + 2;". -/
theorem C8_deterministic_witness :
    parse_statements "print 1 + 2;" = parse_statements "print 1 + 2;" :=
  C8_deterministic "print 1 + 2;" "print 1 + 2;" rfl

/-- C9: the span localizer's `usize` subtraction succeeds without underflow
exactly when every span nested in the function payload (the `name_span`
included) has both endpoints no smaller than the subtracted statement start;
under that precondition the checked rewrite takes no panic branch and agrees
with the unchecked one. -/
theorem C9_underflow_precondition (off : Nat) (di : DefId) (d : FunctionData) :
    ((FunctionData.rewriteChecked off di d).isSome ↔
      ∀ s ∈ d.spans, off ≤ s.start ∧ off ≤ s.«end») ∧
    ((∀ s ∈ d.spans, off ≤ s.start ∧ off ≤ s.«end») →
      FunctionData.rewriteChecked off di d = some (FunctionData.rewrite off di d)) := by
  refine ⟨⟨preFnData_of_rewriteChecked off di d, fun h => ?_⟩,
    rewriteCheckedFnData_eq_some off di d⟩
  rw [rewriteCheckedFnData_eq_some off di d h]
  rfl

/-- Witness for C9 at the `fn f` payload of
"print 9; fn f(x) = x; print f(1);" (statement start 9): all spans start at 12
or later, so the subtraction cannot underflow. -/
theorem C9_underflow_precondition_witness :
    FunctionData.rewriteChecked 9 (DefIdData.Function "f")
      ⟨⟨DefId.unknown, 12, 13⟩, ["x"], .mk ⟨DefId.unknown, 19, 20⟩ (.Variable "x")⟩ =
    some (FunctionData.rewrite 9 (DefIdData.Function "f")
      ⟨⟨DefId.unknown, 12, 13⟩, ["x"], .mk ⟨DefId.unknown, 19, 20⟩ (.Variable "x")⟩) :=
  (C9_underflow_precondition 9 (DefIdData.Function "f")
      ⟨⟨DefId.unknown, 12, 13⟩, ["x"], .mk ⟨DefId.unknown, 19, 20⟩ (.Variable "x")⟩).2
    (by decide)

/-- C10: on a successful parse the retained functions appear in source order,
one per function-definition statement, with no deduplication of repeated
names: the retained name sequence is exactly the in-order sequence of defined
names. -/
theorem C10_source_order_no_dedup (t : String) (stmts : List Statement)
    (hp : grammar.parse t = .ok stmts) :
    (parse_statements t).1.functions.map Function.name =
      stmts.filterMap Statement.defName := by
  simp only [parse_statements, hp]
  rw [List.map_filterMap]
  simp only [retainFunction_name]

/-- Witness for C10 at "fn f(x) = x; fn f(y) = y;": two definitions of `f`
yield two entries, in source order. -/
theorem C10_source_order_no_dedup_witness :
    (parse_statements "fn f(x) = x; fn f(y) = y;").1.functions.map Function.name =
      ["f", "f"] :=
  (C10_source_order_no_dedup "fn f(x) = x; fn f(y) = y;" _ rfl).trans rfl

end Banana
